import Mathlib

/-!
Shallow embedding of the LAP timesheet parsing-and-validation pipeline
(`timesheets.py`): lexical normalizers, the row parser, the rule engine and
the batch assembler, together with theorems checking the specification's
claims against them.

Cells read from a sheet are modelled as `Option String` (`none` is `pd.NA`),
a timesheet batch as a `List TSRow`, and pandas column operations as
element-wise maps over those lists.  Machine floats of the source are
modelled as exact rationals (`Rat`).
-/

/-- Python exception classes that the wrapped parsers can raise
(`ValueError`, `TypeError`; `other` stands for any further class). -/
inductive PyExc
  | valueError
  | typeError
  | other
deriving DecidableEq, Repr

/-- Models `replace_errors(func, errors, replacement=pd.NA)`: run `func` and
replace a raised exception by `none` when its class is in `errs`, letting any
other exception escape (the `Except.error` result). -/
def replace_errors {α β : Type} (func : α → Except PyExc β) (errs : List PyExc)
    (a : α) : Except PyExc (Option β) :=
  match func a with
  | .ok b => .ok (some b)
  | .error e => if e ∈ errs then .ok none else .error e

/-- The ten business columns of a timesheet, by their internal short names
(`COLUMN_SHORT_NAMES` values); `end_` stands for the source's `end`. -/
inductive Col
  | position
  | last
  | first
  | course
  | month
  | day
  | start
  | end_
  | duration
  | notes
deriving DecidableEq, Repr

/-- Internal short name of a column (the values of `COLUMN_SHORT_NAMES`). -/
def shortName : Col → String
  | .position => "position"
  | .last => "last"
  | .first => "first"
  | .course => "course"
  | .month => "month"
  | .day => "day"
  | .start => "start"
  | .end_ => "end"
  | .duration => "duration"
  | .notes => "notes"

/-- Excel column header of a column (the keys of `COLUMN_SHORT_NAMES`,
i.e. `COLUMN_LONG_NAMES[col]`). -/
def longName : Col → String
  | .position => "Position"
  | .last => "Last Name"
  | .first => "First Name"
  | .course => "Class Tutored"
  | .month => "Month"
  | .day => "Day"
  | .start => "Start Time"
  | .end_ => "End Time"
  | .duration => "Duration"
  | .notes => "Notes"

/-- Iteration order of `COLUMN_LONG_NAMES` (insertion order of
`COLUMN_SHORT_NAMES`). -/
def COLUMNS : List Col :=
  [.position, .last, .first, .course, .month, .day, .start, .end_, .duration, .notes]

/-- One raw timesheet row: the ten business cells as raw strings or `pd.NA`,
plus the stamped provenance columns (`row`, `period`, `year`). -/
structure TSRow where
  position : Option String := none
  last : Option String := none
  first : Option String := none
  course : Option String := none
  month : Option String := none
  day : Option String := none
  start : Option String := none
  end_ : Option String := none
  duration : Option String := none
  notes : Option String := none
  row : Nat := 0
  period : String := ""
  year : Option Int := none
deriving DecidableEq, Repr

instance : Inhabited TSRow := ⟨{}⟩

/-- Dynamic string-keyed access `ts[column]` for the business columns. -/
def TSRow.get (r : TSRow) : Col → Option String
  | .position => r.position
  | .last => r.last
  | .first => r.first
  | .course => r.course
  | .month => r.month
  | .day => r.day
  | .start => r.start
  | .end_ => r.end_
  | .duration => r.duration
  | .notes => r.notes

/-- Lowercasing a string, modelling `str.lower` character-wise. -/
def lowerStr (s : String) : String := ⟨s.data.map Char.toLower⟩

/-- Stripping surrounding whitespace, modelling `str.strip`. -/
def trimChars (cs : List Char) : List Char :=
  ((cs.dropWhile Char.isWhitespace).reverse.dropWhile Char.isWhitespace).reverse

/-- String-level wrapper of `trimChars`. -/
def trimStr (s : String) : String := ⟨trimChars s.data⟩

/-- Numeric value of a list of decimal digit characters. -/
def charsToNat (cs : List Char) : Nat :=
  cs.foldl (fun n c => 10 * n + (c.toNat - '0'.toNat)) 0

/-- Models Python `int(s)` on a string: strip whitespace, optional sign, then
decimal digits with single underscores allowed between digits; raises
`ValueError` otherwise. -/
def digitsUS : List Char → Bool
  | [] => true
  | '_' :: c :: rest => c.isDigit && digitsUS rest
  | c :: rest => c.isDigit && digitsUS rest

/-- The sign of an integer literal's character list. -/
def pyIntSign : List Char → Int
  | '-' :: _ => -1
  | _ => 1

/-- An integer literal's character list with the sign stripped. -/
def pyIntBody : List Char → List Char
  | '-' :: r => r
  | '+' :: r => r
  | cs => cs

/-- Models the builtin `int` applied to a string (raising `ValueError` on
anything that is not an integer literal). -/
def pyIntE (s : String) : Except PyExc Int :=
  match pyIntBody (trimChars s.data) with
  | [] => .error .valueError
  | c :: _ =>
    if c.isDigit && digitsUS (pyIntBody (trimChars s.data)) then
      .ok (pyIntSign (trimChars s.data) *
        (charsToNat ((pyIntBody (trimChars s.data)).filter fun d => d ≠ '_') : Int))
    else .error .valueError

/-- Models `str_to_int` on one cell: `series.apply(replace_errors(int,
(ValueError, TypeError)))`, exceptions surfaced in the `Except` layer. -/
def str_to_intE (s : Option String) : Except PyExc (Option Int) :=
  match s with
  | none => .ok none
  | some v => replace_errors pyIntE [.valueError, .typeError] v

/-- The `Int32` series value produced by `str_to_int` for one cell. -/
def str_to_int (s : Option String) : Option Int :=
  match str_to_intE s with
  | .ok r => r
  | .error _ => none

/-- Models `tuple(map(str.lower, calendar.month_abbr))`: index 0 is the empty
string so that months are 1-indexed. -/
def MONTH_ABBRS : List String :=
  ["", "jan", "feb", "mar", "apr", "may", "jun",
   "jul", "aug", "sep", "oct", "nov", "dec"]

/-- Models `list.index`, returning the position of the first occurrence. -/
def listIndex : List String → String → Option Nat
  | [], _ => none
  | a :: l, x => if x = a then some 0 else (listIndex l x).map (· + 1)

/-- Models `MONTH_ABBRS.index`, which raises `ValueError` when the string is
not in the tuple. -/
def monthIndexE (x : String) : Except PyExc Nat :=
  match listIndex MONTH_ABBRS x with
  | some i => .ok i
  | none => .error .valueError

/-- Models `str_to_month` on one cell: `dropna`, take the first three
characters, lowercase, then `replace_errors(MONTH_ABBRS.index, ValueError)`.
-/
def str_to_monthE (s : Option String) : Except PyExc (Option Nat) :=
  match s with
  | none => .ok none
  | some v => replace_errors monthIndexE [.valueError] (lowerStr (String.mk (v.data.take 3)))

/-- The `Int32` series value produced by `str_to_month` for one cell. -/
def str_to_month (s : Option String) : Option Nat :=
  match str_to_monthE s with
  | .ok r => r
  | .error _ => none

/-- Models `drop_empty_strings` on one cell: `dropna`, `str.strip`, then
replace the empty string with `pd.NA`. -/
def drop_empty_strings (s : Option String) : Option String :=
  s.bind fun v => if trimStr v = "" then none else some (trimStr v)

/-- The capture groups of one `TIME_REGEX` match: 1-2 digit `hour`, optional
2-digit `minute` and `second`, optional `ampm` letter (`A`, `a`, `P` or `p`).
-/
structure TimeMatch where
  hour : List Char
  minute : Option (List Char) := none
  second : Option (List Char) := none
  ampm : Option Char := none
deriving DecidableEq, Repr

/-- A word character for the `[^\d\w]*` separator run of `TIME_REGEX`. -/
def isWordChar (c : Char) : Bool := c.isAlphanum || c = '_'

/-- Models one optional `(?:[^\d](\d{2}))?` group: a non-digit separator
followed by exactly two digits. -/
def grabTwoDigits : List Char → Option (List Char × List Char)
  | sep :: d1 :: d2 :: rest =>
    if !sep.isDigit && d1.isDigit && d2.isDigit then some ([d1, d2], rest)
    else none
  | _ => none

/-- The greedy `(?P<hour>\d{1,2})` group: `c1` is the digit the match starts
at. -/
def hourSplit (c1 : Char) (cs : List Char) : List Char × List Char :=
  match cs with
  | c2 :: rest => if c2.isDigit then ([c1, c2], rest) else ([c1], c2 :: rest)
  | [] => ([c1], [])

/-- Attempt an optional two-digit group, keeping the input on failure. -/
def optGrab (cs : List Char) : Option (List Char) × List Char :=
  match grabTwoDigits cs with
  | some (ds, r) => (some ds, r)
  | none => (none, cs)

/-- The `[^\d\w]*` separator run before the AM/PM group. -/
def sepSkip (cs : List Char) : List Char :=
  cs.dropWhile fun c => !c.isDigit && !isWordChar c

/-- The optional `(?:(?P<ampm>[AaPp])[Mm]?)?` group (only the letter is
captured). -/
def ampmGrab : List Char → Option Char
  | c :: _ => if c = 'A' || c = 'a' || c = 'P' || c = 'p' then some c else none
  | [] => none

/-- The groups captured when `TIME_REGEX` matches starting at digit `c1`:
hour, then the two optional two-digit groups, the separator run and the
optional AM/PM letter. -/
def matchAt (c1 : Char) (cs : List Char) : TimeMatch :=
  ⟨(hourSplit c1 cs).1,
   (optGrab (hourSplit c1 cs).2).1,
   (optGrab (optGrab (hourSplit c1 cs).2).2).1,
   ampmGrab (sepSkip (optGrab (optGrab (hourSplit c1 cs).2).2).2)⟩

/-- Models `series.str.extract(TIME_REGEX)` on one cell: `re.search`
semantics, so the match starts at the first digit of the string (the pattern
cannot start anywhere else), and `none` when there is no digit at all. -/
def timeExtractL : List Char → Option TimeMatch
  | [] => none
  | c :: cs => if c.isDigit then some (matchAt c cs) else timeExtractL cs

/-- String-level wrapper of `timeExtractL`. -/
def timeExtract (s : String) : Option TimeMatch := timeExtractL s.data

/-- Models `matches["ampm"] + "m"` (with `fillna("")`): the optional suffix
appended to the rebuilt clock string. -/
def ampmChars : Option Char → List Char
  | some c => [c, 'm']
  | none => []

/-- Models `pd.to_datetime(ClockString, errors="coerce")` followed by
`strftime("%H:%M")` on the clock strings this module builds
(`hour + ":" + minute + ampm`): digits, a colon, two digits and an optional
case-insensitive am/pm suffix.  With a meridian suffix dateutil accepts any
hour from 0 to 12 (`pm` adds 12 except for 12, so 0 pm is 12:xx; `am` maps
12 to 0 and keeps 0); without a suffix the hour is taken as a 24-hour
value.  Anything else coerces to `NaT` (`none`).  `clockFinish` is the
final hour-adjustment and validity step. -/
def clockFinish (h mnt : Nat) (suffix : List Char) : Option (Nat × Nat) :=
  if suffix = [] then
    if h ≤ 23 ∧ mnt ≤ 59 then some (h, mnt) else none
  else if suffix = ['a', 'm'] then
    if h ≤ 12 ∧ mnt ≤ 59 then some (if h = 12 then 0 else h, mnt)
    else none
  else if suffix = ['p', 'm'] then
    if h ≤ 12 ∧ mnt ≤ 59 then some (if h = 12 then 12 else h + 12, mnt)
    else none
  else none

/-- After the hour digits: a colon, 1-2 minute digits and the lowercased
remainder, which must be empty or a meridian suffix. -/
def clockTail (h : Nat) : List Char → Option (Nat × Nat)
  | ':' :: rest2 =>
    if (rest2.takeWhile Char.isDigit).isEmpty
        || (rest2.takeWhile Char.isDigit).length > 2 then none
    else
      clockFinish h (charsToNat (rest2.takeWhile Char.isDigit))
        ((rest2.dropWhile Char.isDigit).map Char.toLower)
  | _ => none

def pd_to_datetime_clockL (cs : List Char) : Option (Nat × Nat) :=
  if (cs.takeWhile Char.isDigit).isEmpty || (cs.takeWhile Char.isDigit).length > 2 then
    none
  else clockTail (charsToNat (cs.takeWhile Char.isDigit)) (cs.dropWhile Char.isDigit)

/-- Models `normalize_time_string` on one cell: extract the `TIME_REGEX`
groups, rebuild `hour + ":" + minute + ampm` and coerce it with
`pd.to_datetime`.  When the minute group did not match, the rebuilt string is
`NA` (string concatenation with `NaN` propagates), so the result is absent.
The result models the `"%H:%M"` string as an (hour, minute) pair. -/
def normalize_time_string : Option String → Option (Nat × Nat)
  | none => none
  | some v =>
    match timeExtractL v.data with
    | none => none
    | some m =>
      match m.minute with
      | none => none
      | some mm => pd_to_datetime_clockL (m.hour ++ ':' :: (mm ++ ampmChars m.ampm))

/-- The optional exponent tail of a numeric string: empty, or `e`/`E` with
an optional sign and digits, scaling the mantissa by the power of ten. -/
def parseExp (base : Rat) : List Char → Option Rat
  | [] => some base
  | e :: rest =>
    if e = 'e' || e = 'E' then
      match rest with
      | '+' :: ds =>
        if !ds.isEmpty && ds.all Char.isDigit then
          some (base * (10 : Rat) ^ charsToNat ds)
        else none
      | '-' :: ds =>
        if !ds.isEmpty && ds.all Char.isDigit then
          some (base / (10 : Rat) ^ charsToNat ds)
        else none
      | ds =>
        if !ds.isEmpty && ds.all Char.isDigit then
          some (base * (10 : Rat) ^ charsToNat ds)
        else none
    else none

/-- Models `pd.to_numeric(cell, errors="coerce")` on a string cell: an
optional sign, digits with an optional fractional part and an optional
decimal exponent; anything else coerces to `NaN` (`none`).  The float is
modelled as an exact rational; `"nan"` maps to the missing value (under
`isna` that is indistinguishable from `none`), and infinite values
(`"inf"`), which a rational cannot represent, are the one model boundary
and are also returned absent. -/
def parseDecimalL (cs : List Char) : Option Rat :=
  let sgn : Rat := match cs with
    | '-' :: _ => -1
    | _ => 1
  let body : List Char := match cs with
    | '-' :: r => r
    | '+' :: r => r
    | _ => cs
  let ip := body.takeWhile Char.isDigit
  match body.dropWhile Char.isDigit with
  | '.' :: fp2 =>
    if ip.isEmpty && (fp2.takeWhile Char.isDigit).isEmpty then none
    else
      parseExp
        (sgn * ((charsToNat ip : Rat) +
          (charsToNat (fp2.takeWhile Char.isDigit) : Rat)
            / ((10 : Rat) ^ (fp2.takeWhile Char.isDigit).length)))
        (fp2.dropWhile Char.isDigit)
  | rest =>
    if ip.isEmpty then none
    else parseExp (sgn * (charsToNat ip : Rat)) rest

/-- One-cell wrapper of `parseDecimalL` (pandas strips surrounding
whitespace before parsing). -/
def pd_to_numeric (s : Option String) : Option Rat :=
  s.bind fun v => parseDecimalL (trimChars v.data)

/-- Per role, the required and forbidden column sets, already mapped to the
internal short column names as done at load time. -/
structure RolePolicy where
  required : List Col
  forbidden : List Col
deriving DecidableEq, Repr

/-- Modelled from the spec: `positions.json` is not under `src/`, only its
loader is, so the role policy table is taken from the specification's words:
role keys are lowercased, a Tutor (and a Learning Strategist) requires the
Class Tutored column, a Coordinator does not require it. -/
def POSITIONS : List (String × RolePolicy) :=
  [("tutor", ⟨[.course], []⟩),
   ("learning strategist", ⟨[.course], []⟩),
   ("coordinator", ⟨[], []⟩)]

/-- Models `normalize_position` on one cell: lowercase, then keep only names
that are keys of `POSITIONS` (`position[position.isin(POSITIONS)]`). -/
def normalize_position (s : Option String) : Option String :=
  s.bind fun v =>
    if lowerStr v ∈ POSITIONS.map Prod.fst then some (lowerStr v) else none

/-- Whether February has 29 days in year `y` (proleptic Gregorian, as
pandas). -/
def isLeap (y : Int) : Bool := (y % 4 = 0 && y % 100 ≠ 0) || y % 400 = 0

/-- Days in month `m` of year `y`. -/
def daysInMonth (y : Int) (m : Nat) : Int :=
  if m = 2 then (if isLeap y then 29 else 28)
  else if m = 4 || m = 6 || m = 9 || m = 11 then 30
  else 31

/-- Lexicographic order on (year, month, day) triples. -/
def dateLe (a b : Int × Int × Int) : Bool :=
  a.1 < b.1 || (a.1 = b.1 && (a.2.1 < b.2.1 || (a.2.1 = b.2.1 && a.2.2 ≤ b.2.2)))

/-- Whether `pd.to_datetime` accepts year/month/day components: a real
proleptic-Gregorian date within the `pd.Timestamp` range (1677-09-21 to
2262-04-11); anything else coerces to `NaT`. -/
def dateValid (y : Int) (m : Nat) (d : Int) : Bool :=
  1 ≤ m && m ≤ 12 && 1 ≤ d && d ≤ daysInMonth y m &&
  dateLe (1677, 9, 21) (y, (m : Int), d) && dateLe (y, (m : Int), d) (2262, 4, 11)

/-- Models the `parsed["date"]` column for one row:
`pd.to_datetime(parsed[["year", "month", "day"]].dropna(), errors="coerce")`,
absent when a component is absent or the combination is not a valid date. -/
def makeDate : Option Int → Option Nat → Option Int → Option (Int × Nat × Int)
  | some y, some m, some d => if dateValid y m d then some (y, m, d) else none
  | _, _, _ => none

/-- One parsed timesheet row (the row of the `parsed` DataFrame built by
`parse_timesheet`). -/
structure ParsedRow where
  position : Option String
  last : Option String
  first : Option String
  course : Option String
  month : Option Nat
  day : Option Int
  start : Option (Nat × Nat)
  end_ : Option (Nat × Nat)
  duration : Option Rat
  notes : Option String
  row : Nat
  year : Option Int
  date : Option (Int × Nat × Int)
deriving DecidableEq, Repr

/-- Models `parse_timesheet` on one row. -/
def parse_timesheet_row (r : TSRow) : ParsedRow where
  position := normalize_position r.position
  last := drop_empty_strings r.last
  first := drop_empty_strings r.first
  course := drop_empty_strings r.course
  month := str_to_month r.month
  day := str_to_int r.day
  start := normalize_time_string r.start
  end_ := normalize_time_string r.end_
  duration := pd_to_numeric r.duration
  notes := drop_empty_strings r.notes
  row := r.row
  year := r.year
  date := makeDate r.year (str_to_month r.month) (str_to_int r.day)

/-- Models `parse_timesheet` on a whole batch (column operations are
element-wise). -/
def parse_timesheet (ts : List TSRow) : List ParsedRow :=
  ts.map parse_timesheet_row

/-- Whether the parsed counterpart of a raw column is present
(`parsed[column].notna()`). -/
def ParsedRow.present (p : ParsedRow) : Col → Bool
  | .position => p.position.isSome
  | .last => p.last.isSome
  | .first => p.first.isSome
  | .course => p.course.isSome
  | .month => p.month.isSome
  | .day => p.day.isSome
  | .start => p.start.isSome
  | .end_ => p.end_.isSome
  | .duration => p.duration.isSome
  | .notes => p.notes.isSome

/-- Levels of timesheet entry errors (`ErrorLevel` Enum). -/
inductive ErrorLevel
  | comment
  | warning
  | critical
deriving DecidableEq, Repr

/-- The message templates occurring in the error-detection functions; the
substitution of row values happens in `Msg.render`, as `format(**row)` does
in `timesheet_errors`. -/
inductive Msg
  | missingPosition
  | invalidPosition
  | missingRequired (c : Col)
  | forbiddenEntry (c : Col)
  | invalidEntry (c : Col)
  | invalidDay
  | durationNotQuarter
deriving DecidableEq, Repr

/-- How `pd.NA` renders in a formatted message. -/
def fmtOpt : Option String → String
  | some s => s
  | none => "<NA>"

/-- How a nullable `Int32` renders in a formatted message. -/
def fmtInt : Option Int → String
  | some i => toString i
  | none => "<NA>"

/-- Models `error.message.format(**row)`: each template fully substituted
from the raw row. -/
def Msg.render : Msg → TSRow → String
  | .missingPosition, _ => "Missing entry: Position"
  | .invalidPosition, r => "Invalid position: " ++ fmtOpt r.position
  | .missingRequired c, _ => "Missing required entry: " ++ shortName c
  | .forbiddenEntry c, r =>
    longName c ++ " should be blank instead of: " ++ fmtOpt (r.get c)
  | .invalidEntry c, r =>
    longName c ++ " entry not understood: " ++ fmtOpt (r.get c)
  | .invalidDay, r =>
    "Invalid day for " ++ fmtOpt r.month ++ " " ++ fmtInt r.year ++ ": " ++ fmtOpt r.day
  | .durationNotQuarter, r =>
    "Duration not rounded to 15 minutes: " ++ fmtOpt r.duration

/-- A timesheet error: Boolean mask over the batch, message template and
level (the `TSError` namedtuple). -/
structure TSError where
  mask : List Bool
  message : Msg
  level : ErrorLevel
deriving DecidableEq, Repr

/-- Models `mask.sum()` used truthily: the mask selects at least one row. -/
def anyTrue (mask : List Bool) : Bool := mask.any id

/-- Models `position_errors`: missing and invalid entries in the Position
column. -/
def position_errors (ts : List TSRow) (parsed : List ParsedRow) : List TSError :=
  let missing := ts.map fun r => r.position.isNone
  let invalid := (ts.zip parsed).map fun rp =>
    rp.1.position.isSome && rp.2.position.isNone
  (if anyTrue missing then [⟨missing, .missingPosition, .critical⟩] else [])
    ++ (if anyTrue invalid then [⟨invalid, .invalidPosition, .critical⟩] else [])

/-- Models `required_entry_errors`: for each role and each column required
for it, rows of that role whose raw entry is absent. -/
def required_entry_errors (ts : List TSRow) (parsed : List ParsedRow) : List TSError :=
  (POSITIONS.map fun pos =>
    (pos.2.required.map fun column =>
      let missing := (ts.zip parsed).map fun rp =>
        decide (rp.2.position = some pos.1) && (rp.1.get column).isNone
      if anyTrue missing then [⟨missing, .missingRequired column, .critical⟩] else []).flatten).flatten

/-- Models `forbidden_entry_errors`: for each role and each column forbidden
for it, rows of that role whose raw entry is present. -/
def forbidden_entry_errors (ts : List TSRow) (parsed : List ParsedRow) : List TSError :=
  (POSITIONS.map fun pos =>
    (pos.2.forbidden.map fun column =>
      let forbidden := (ts.zip parsed).map fun rp =>
        decide (rp.2.position = some pos.1) && (rp.1.get column).isSome
      if anyTrue forbidden then [⟨forbidden, .forbiddenEntry column, .warning⟩] else []).flatten).flatten

/-- Models `invalid_entry_errors`: for every one of the ten columns, rows
whose raw entry is present but whose parsed entry is absent. -/
def invalid_entry_errors (ts : List TSRow) (parsed : List ParsedRow) : List TSError :=
  (COLUMNS.map fun column =>
    let invalid := (ts.zip parsed).map fun rp =>
      (rp.1.get column).isSome && !(rp.2.present column)
    if anyTrue invalid then [⟨invalid, .invalidEntry column, .critical⟩] else []).flatten

/-- Models `date_errors`: rows whose year, month and day components are all
present but do not combine into a valid date. -/
def date_errors (_ts : List TSRow) (parsed : List ParsedRow) : List TSError :=
  let invalid := parsed.map fun p =>
    (p.year.isSome && p.month.isSome && p.day.isSome) && p.date.isNone
  if anyTrue invalid then [⟨invalid, .invalidDay, .critical⟩] else []

/-- Models `duration_errors` exactly as written in the source: it computes
the mask of rows where both times parsed and returns that mask, not a list
of `TSError` as its docstring promises. -/
def duration_errors (_ts : List TSRow) (parsed : List ParsedRow) : List Bool :=
  parsed.map fun p => p.start.isSome && p.end_.isSome

/-- The fixed rule catalog wired into `timesheet_errors` (note that
`duration_errors` is not in it). -/
def error_functions : List (List TSRow → List ParsedRow → List TSError) :=
  [position_errors, required_entry_errors, forbidden_entry_errors,
   invalid_entry_errors, date_errors]

/-- One row of the findings DataFrame returned by `timesheet_errors`. -/
structure Finding where
  message : String
  level : ErrorLevel
  row : Nat
deriving DecidableEq, Repr

/-- Models one `error_df`: the rows selected by the mask, each with the
rendered message, the level and the batch index (`error_df.index`). -/
def renderError (ts : List TSRow) (e : TSError) : List Finding :=
  ((ts.zip e.mask).enum.filter fun irb => irb.2.2).map fun irb =>
    ⟨e.message.render irb.2.1, e.level, irb.1⟩

/-- Models `timesheet_errors`: run every rule, render one finding per masked
row and concatenate.  `pd.concat` raises `ValueError` when `error_dfs` is
empty, which is the `none` result. -/
def timesheet_errors (ts : List TSRow) (parsed : List ParsedRow) : Option (List Finding) :=
  let errs := (error_functions.map fun f => f ts parsed).flatten
  if errs.isEmpty then none
  else some ((errs.map fun e => renderError ts e).flatten)

/-- Models Python `round` on an exact value: round half to even. -/
def pyRound (q : Rat) : Int :=
  let f := q.floor
  let frac := q - (f : Rat)
  if frac < 1 / 2 then f
  else if 1 / 2 < frac then f + 1
  else if f % 2 = 0 then f else f + 1

/-- Models `round_to_multiple`: round to the nearest multiple of `base`. -/
def round_to_multiple (x : Rat) (base : Rat := 1) : Rat :=
  (pyRound (x / base) : Rat) * base

/-- Modelled from the spec: the "Duration not quarter-hour" rule of the rule
catalog (declared duration differs from its rounding to the nearest 0.25,
severity warning) is missing from `src/timesheets.py`, which defines its
helper `round_to_multiple` but never calls it; the rule is taken from the
specification's words. -/
def quarter_hour_errors (_ts : List TSRow) (parsed : List ParsedRow) : List TSError :=
  let mask := parsed.map fun p =>
    match p.duration with
    | some d => decide (d ≠ round_to_multiple d (1 / 4))
    | none => false
  if anyTrue mask then [⟨mask, .durationNotQuarter, .warning⟩] else []

/-- 0-indexed sheet row containing the column names (`EXCEL_HEADER`). -/
def EXCEL_HEADER : Nat := 1

/-- Whether every business column of a row is blank
(`sheet.dropna(how="all")` drops exactly these rows). -/
def businessBlank (r : TSRow) : Bool :=
  COLUMNS.all fun c => (r.get c).isNone

/-- Models `concat_pay_periods` on already-recognized period sheets: drop
fully-blank rows, stamp each survivor with its original sheet position
(`sheet.index + EXCEL_HEADER + 2`, since `dropna` preserves the index) and
its period name, then concatenate. -/
def concat_pay_periods (periods : List (String × List TSRow)) : List TSRow :=
  (periods.map fun p =>
    ((p.2.enum.filter fun ir => !businessBlank ir.2).map fun ir =>
      { ir.2 with row := ir.1 + EXCEL_HEADER + 2, period := p.1 })).flatten

/-- Claim-side description of the batch assembler's guarantee: the 1-based
original sheet positions of the rows that are not fully blank, in order,
starting from unfiltered index `i`. -/
def surviving_sheet_rows : List TSRow → Nat → List Nat
  | [], _ => []
  | r :: rs, i =>
    if businessBlank r then surviving_sheet_rows rs (i + 1)
    else (i + EXCEL_HEADER + 2) :: surviving_sheet_rows rs (i + 1)

/-- Number of rule-engine errors with a given template and level whose mask
selects at least one row. -/
def countMsgLevel : List TSError → Msg → ErrorLevel → Nat
  | [], _, _ => 0
  | e :: es, m, lv =>
    (if e.message = m ∧ e.level = lv ∧ anyTrue e.mask = true then 1 else 0)
      + countMsgLevel es m lv

/-- A fully valid Tutor row: every field parses, the role's required columns
are present, and the declared duration (2.0) differs from the duration
computed from the times (1.5) by more than 0.1 hours. -/
def c1Row : TSRow :=
  { position := some "Tutor", last := some "Doe", first := some "Jo",
    course := some "MATH 100", month := some "Sep", day := some "5",
    start := some "9:00", end_ := some "10:30", duration := some "2.0",
    year := some 2019 }

/-- A fully valid Coordinator row on which no rule of the catalog matches. -/
def c3Row : TSRow :=
  { position := some "Coordinator", month := some "Oct", day := some "3",
    start := some "4:15 Pm", end_ := some "5:15pm", duration := some "1.0",
    year := some 2019 }

/-- C1: the spec's "Duration mismatch" rule does not exist in the code: on a
row whose start (9:00), end (10:30) and declared duration (2.0) all parse,
with a declared-minus-computed gap of 0.5 > 0.1 hours, `duration_errors`
returns a bare Boolean mask (not `TSError`s, contradicting its docstring),
it is not among `error_functions`, and `timesheet_errors` yields no finding
at all on this row (`none` models the `pd.concat` `ValueError` on an empty
list). -/
theorem c1_duration_rule_unwired :
    (parse_timesheet_row c1Row).start = some (9, 0)
  ∧ (parse_timesheet_row c1Row).end_ = some (10, 30)
  ∧ (parse_timesheet_row c1Row).duration = some 2
  ∧ ((2 : Rat) - ((10 * 60 + 30 : Rat) - (9 * 60 + 0 : Rat)) / 60 > 1 / 10)
  ∧ duration_errors [c1Row] (parse_timesheet [c1Row]) = [true]
  ∧ timesheet_errors [c1Row] (parse_timesheet [c1Row]) = none := by
  with_unfolding_all decide

/-- C2: an hour-only time string is not given minute 0: the regex matches
`"4"` and `"4PM"` with no minute group, and `normalize_time_string` then
returns absent (the rebuilt `hour + ":" + minute` string is `NA`), not 4:00
and 16:00 as the spec claims. -/
theorem c2_hour_only_absent :
    timeExtract "4" = some ⟨['4'], none, none, none⟩
  ∧ normalize_time_string (some "4") = none
  ∧ timeExtract "4PM" = some ⟨['4'], none, none, some 'P'⟩
  ∧ normalize_time_string (some "4PM") = none := by decide

/-- C3: on a batch whose single row triggers no rule, every error-detection
function returns the empty list, and `timesheet_errors` then calls
`pd.concat` on an empty list, which raises `ValueError` (the `none` result)
instead of returning an empty findings collection. -/
theorem c3_no_findings_concat_raises :
    position_errors [c3Row] (parse_timesheet [c3Row]) = []
  ∧ required_entry_errors [c3Row] (parse_timesheet [c3Row]) = []
  ∧ forbidden_entry_errors [c3Row] (parse_timesheet [c3Row]) = []
  ∧ invalid_entry_errors [c3Row] (parse_timesheet [c3Row]) = []
  ∧ date_errors [c3Row] (parse_timesheet [c3Row]) = []
  ∧ timesheet_errors [c3Row] (parse_timesheet [c3Row]) = none := by decide

/-- C4 counterexample: on the empty string the month parser returns month
number 0 (the placeholder at index 0 of `MONTH_ABBRS`), not absent and not a
value in 1-12 as the claim states. -/
theorem c4_empty_month_counterexample :
    str_to_month (some "") = some 0 ∧ str_to_month (some "") ≠ none := by decide

/-- C5 counterexample: `"4:15:99"` matches the pattern with second group 99,
so hour/minute/second do not form a valid time of day, yet the normalizer
returns 04:15 rather than absent: the captured second is ignored. -/
theorem c5_second_ignored_counterexample :
    timeExtract "4:15:99" = some ⟨['4'], some ['1', '5'], some ['9', '9'], none⟩
  ∧ normalize_time_string (some "4:15:99") = some (4, 15) := by decide

/-- The month parser is the first-occurrence index of the lowered 3-character
head of the cell in `MONTH_ABBRS`, with the raised `ValueError` caught. -/
theorem str_to_month_eq (s : String) :
    str_to_month (some s) = listIndex MONTH_ABBRS (lowerStr (String.mk (s.data.take 3))) := by
  unfold str_to_month str_to_monthE replace_errors monthIndexE
  cases h : listIndex MONTH_ABBRS (lowerStr (String.mk (s.data.take 3))) <;> simp [h]

/-- A string not in the list has no index. -/
theorem listIndex_eq_none_of_not_mem (l : List String) (x : String) (h : x ∉ l) :
    listIndex l x = none := by
  induction l with
  | nil => rfl
  | cons a l ih =>
    simp only [List.mem_cons, not_or] at h
    simp [listIndex, h.1, ih h.2]

/-- C4 (amended): for every string whose lowercased 3-character head is the
month abbreviation at index 1-12 of `MONTH_ABBRS`, the month parser returns
that index; when the head is not in the table at all it returns absent; but
when the head is the empty string (in particular on the empty input) it
returns 0 — the table's index-0 placeholder — rather than absent. -/
theorem c4_month_parser_amended (s : String) :
    (∀ i : Nat, 1 ≤ i → i ≤ 12 →
        lowerStr (String.mk (s.data.take 3)) = MONTH_ABBRS.getD i "" →
        str_to_month (some s) = some i)
  ∧ (lowerStr (String.mk (s.data.take 3)) = "" → str_to_month (some s) = some 0)
  ∧ (lowerStr (String.mk (s.data.take 3)) ∉ MONTH_ABBRS → str_to_month (some s) = none) := by
  refine ⟨?_, ?_, ?_⟩
  · intro i h1 h2 hk
    rw [str_to_month_eq, hk]
    interval_cases i <;> decide
  · intro hk
    rw [str_to_month_eq, hk]
    decide
  · intro hk
    rw [str_to_month_eq, listIndex_eq_none_of_not_mem _ _ hk]

/-- Witness for C4: the full month name `"February"` (head `"feb"`, table
index 2) parses to 2, and a non-month prefix parses to absent. -/
theorem c4_month_witness :
    str_to_month (some "February") = some 2 ∧ str_to_month (some "xyzzy") = none :=
  ⟨(c4_month_parser_amended "February").1 2 (by decide) (by decide) (by decide),
   (c4_month_parser_amended "xyzzy").2.2 (by decide)⟩

/-- Claim-side validity of captured hour and minute values under an
optional meridian indicator: without one, a 24-hour clock reading; with
one, a 12-hour clock reading where dateutil also accepts hour 0. -/
def clockValid (h mnt : Nat) (ampm : Option Char) : Bool :=
  match ampm with
  | none => decide (h ≤ 23) && decide (mnt ≤ 59)
  | some _ => decide (h ≤ 12) && decide (mnt ≤ 59)

/-- Splitting a digit run followed by a non-digit (or nothing) with
`takeWhile`/`dropWhile` recovers the two parts. -/
theorem takeWhile_dropWhile_append (p : Char → Bool) (l r : List Char)
    (hall : l.all p = true)
    (hr : ∀ x xs, r = x :: xs → p x = false) :
    (l ++ r).takeWhile p = l ∧ (l ++ r).dropWhile p = r := by
  induction l with
  | nil =>
    cases r with
    | nil => simp
    | cons x xs => simp [List.takeWhile_cons, List.dropWhile_cons, hr x xs rfl]
  | cons a l ih =>
    simp only [List.all_cons, Bool.and_eq_true] at hall
    have h2 := ih hall.2
    simp [List.takeWhile_cons, List.dropWhile_cons, hall.1, h2.1, h2.2]

/-- A successful two-digit group capture yields two digit characters. -/
theorem grabTwoDigits_spec (cs ds rest : List Char)
    (h : grabTwoDigits cs = some (ds, rest)) :
    ds.length = 2 ∧ ds.all Char.isDigit = true := by
  match cs with
  | [] => simp [grabTwoDigits] at h
  | [a] => simp [grabTwoDigits] at h
  | [a, b] => simp [grabTwoDigits] at h
  | sep :: d1 :: d2 :: r =>
    simp only [grabTwoDigits] at h
    split at h
    · rename_i hc
      simp only [Option.some.injEq, Prod.mk.injEq] at h
      obtain ⟨rfl, rfl⟩ := h
      simp only [Bool.and_eq_true] at hc
      refine ⟨rfl, ?_⟩
      simp [hc.1.2, hc.2]
    · exact absurd h (by simp)

/-- The hour group is one or two digit characters. -/
theorem hourSplit_spec (c1 : Char) (cs : List Char) (hc : c1.isDigit = true) :
    (hourSplit c1 cs).1 ≠ [] ∧ (hourSplit c1 cs).1.length ≤ 2 ∧
    (hourSplit c1 cs).1.all Char.isDigit = true := by
  match cs with
  | [] => simp [hourSplit, hc]
  | c2 :: rest =>
    by_cases h2 : c2.isDigit = true
    · simp [hourSplit, h2, hc]
    · simp only [Bool.not_eq_true] at h2
      simp [hourSplit, h2, hc]

/-- An optional two-digit capture that succeeded yields two digits. -/
theorem optGrab_spec (cs : List Char) (mm : List Char)
    (h : (optGrab cs).1 = some mm) :
    mm.length = 2 ∧ mm.all Char.isDigit = true := by
  unfold optGrab at h
  cases hg : grabTwoDigits cs with
  | none => rw [hg] at h; simp at h
  | some dr =>
    obtain ⟨ds, r⟩ := dr
    rw [hg] at h
    simp only [Option.some.injEq] at h
    exact h ▸ grabTwoDigits_spec cs ds r hg

/-- A captured AM/PM letter is one of the four letters of the class. -/
theorem ampmGrab_spec (cs : List Char) (a : Char) (h : ampmGrab cs = some a) :
    a = 'A' ∨ a = 'a' ∨ a = 'P' ∨ a = 'p' := by
  match cs with
  | [] => simp [ampmGrab] at h
  | c :: rest =>
    simp only [ampmGrab] at h
    split at h
    · rename_i hc
      simp only [Option.some.injEq] at h
      subst h
      simp only [Bool.or_eq_true, decide_eq_true_eq] at hc
      tauto
    · simp at h

/-- Shape invariants of every match produced at a starting digit. -/
theorem matchAt_spec (c1 : Char) (cs : List Char) (hc : c1.isDigit = true) :
    ((matchAt c1 cs).hour ≠ [] ∧ (matchAt c1 cs).hour.length ≤ 2 ∧
       (matchAt c1 cs).hour.all Char.isDigit = true)
  ∧ (∀ mm, (matchAt c1 cs).minute = some mm →
       mm.length = 2 ∧ mm.all Char.isDigit = true)
  ∧ (∀ a, (matchAt c1 cs).ampm = some a →
       a = 'A' ∨ a = 'a' ∨ a = 'P' ∨ a = 'p') := by
  refine ⟨hourSplit_spec c1 cs hc, ?_, ?_⟩
  · intro mm h
    exact optGrab_spec _ mm h
  · intro a h
    exact ampmGrab_spec _ a h

/-- Shape invariants of every successful `TIME_REGEX` extraction. -/
theorem timeExtractL_spec (cs : List Char) (m : TimeMatch)
    (h : timeExtractL cs = some m) :
    (m.hour ≠ [] ∧ m.hour.length ≤ 2 ∧ m.hour.all Char.isDigit = true)
  ∧ (∀ mm, m.minute = some mm → mm.length = 2 ∧ mm.all Char.isDigit = true)
  ∧ (∀ a, m.ampm = some a → a = 'A' ∨ a = 'a' ∨ a = 'P' ∨ a = 'p') := by
  induction cs with
  | nil => simp [timeExtractL] at h
  | cons c cs ih =>
    simp only [timeExtractL] at h
    split at h
    · rename_i hc
      simp only [Option.some.injEq] at h
      subst h
      exact matchAt_spec c cs hc
    · exact ih h

/-- The rebuilt clock string coerces to `NaT` whenever the captured hour and
minute values are not a valid clock reading for the captured indicator. -/
theorem clock_build_none (hd mm : List Char) (am : Option Char)
    (h1 : hd ≠ []) (h2 : hd.length ≤ 2) (h3 : hd.all Char.isDigit = true)
    (m1 : mm.length = 2) (m2 : mm.all Char.isDigit = true)
    (ha : ∀ a, am = some a → a = 'A' ∨ a = 'a' ∨ a = 'P' ∨ a = 'p')
    (hcv : clockValid (charsToNat hd) (charsToNat mm) am = false) :
    pd_to_datetime_clockL (hd ++ ':' :: (mm ++ ampmChars am)) = none := by
  have hsuffix : ∀ x xs, ampmChars am = x :: xs → Char.isDigit x = false := by
    intro x xs hx
    cases am with
    | none => simp [ampmChars] at hx
    | some a =>
      simp only [ampmChars, List.cons.injEq] at hx
      obtain ⟨rfl, -⟩ := hx
      rcases ha a rfl with h | h | h | h <;> subst h <;> decide
  have hsp := takeWhile_dropWhile_append Char.isDigit hd
      (':' :: (mm ++ ampmChars am)) h3
      (by intro x xs hx; simp only [List.cons.injEq] at hx; obtain ⟨rfl, -⟩ := hx; decide)
  have hsp2 := takeWhile_dropWhile_append Char.isDigit mm (ampmChars am) m2 hsuffix
  have hne : hd.isEmpty = false := by
    cases hd with
    | nil => exact absurd rfl h1
    | cons a l => rfl
  have hne2 : mm.isEmpty = false := by
    cases mm with
    | nil => simp at m1
    | cons a l => rfl
  unfold pd_to_datetime_clockL
  rw [hsp.1, hsp.2]
  rw [if_neg (by simp [hne]; omega)]
  simp only [clockTail]
  rw [hsp2.1, hsp2.2]
  rw [if_neg (by simp [hne2]; omega)]
  cases am with
  | none =>
    have hv : ¬(charsToNat hd ≤ 23 ∧ charsToNat mm ≤ 59) := by
      intro hcontra
      simp [clockValid, hcontra.1, hcontra.2] at hcv
    simp only [ampmChars, List.map_nil, clockFinish]
    simp [hv]
  | some a =>
    have hv : ¬(charsToNat hd ≤ 12 ∧ charsToNat mm ≤ 59) := by
      intro hcontra
      simp [clockValid, hcontra.1, hcontra.2] at hcv
    have hmchar : Char.toLower 'm' = 'm' := by decide
    rcases ha a rfl with h | h | h | h <;> subst h
    · simp only [ampmChars, List.map_cons, List.map_nil, hmchar,
        show Char.toLower 'A' = 'a' from by decide, clockFinish]
      simp [hv]
    · simp only [ampmChars, List.map_cons, List.map_nil, hmchar,
        show Char.toLower 'a' = 'a' from by decide, clockFinish]
      simp [hv]
    · simp only [ampmChars, List.map_cons, List.map_nil, hmchar,
        show Char.toLower 'P' = 'p' from by decide, clockFinish]
      simp [hv]
    · simp only [ampmChars, List.map_cons, List.map_nil, hmchar,
        show Char.toLower 'p' = 'p' from by decide, clockFinish]
      simp [hv]

/-- C5 (amended): the time normalizer returns absent whenever the lexical
pattern does not match, whenever the minute group is missing, and whenever
the captured hour and minute do not form a valid clock reading for the
captured AM/PM indicator (hour over 12 with a meridian - hour 0 is accepted
there, as dateutil allows it - hour over 23 without one, or minute over
59); the captured second group is ignored (it does not force absence, see
the counterexample).  In particular `"35:74 PM"` returns absent, while
`"0:30pm"` and `"0:30am"` parse to 12:30 and 00:30. -/
theorem c5_invalid_time_absent (s : String) :
    (timeExtract s = none → normalize_time_string (some s) = none)
  ∧ (∀ m, timeExtract s = some m → m.minute = none →
      normalize_time_string (some s) = none)
  ∧ (∀ m mm, timeExtract s = some m → m.minute = some mm →
      clockValid (charsToNat m.hour) (charsToNat mm) m.ampm = false →
      normalize_time_string (some s) = none)
  ∧ normalize_time_string (some "35:74 PM") = none
  ∧ normalize_time_string (some "0:30pm") = some (12, 30)
  ∧ normalize_time_string (some "0:30am") = some (0, 30) := by
  refine ⟨?_, ?_, ?_, by decide, by decide, by decide⟩
  · intro h
    simp only [timeExtract] at h
    simp [normalize_time_string, h]
  · intro m hm hmin
    simp only [timeExtract] at hm
    simp [normalize_time_string, hm, hmin]
  · intro m mm hm hmin hcv
    simp only [timeExtract] at hm
    have spec := timeExtractL_spec s.data m hm
    simp only [normalize_time_string, hm, hmin]
    exact clock_build_none m.hour mm m.ampm spec.1.1 spec.1.2.1 spec.1.2.2
      (spec.2.1 mm hmin).1 (spec.2.1 mm hmin).2 spec.2.2 hcv

/-- Witness for C5: the captured hour 99 of `"99:99"` is not a valid clock
reading, so the normalizer returns absent there. -/
theorem c5_time_witness : normalize_time_string (some "99:99") = none :=
  (c5_invalid_time_absent "99:99").2.2.1
    ⟨['9', '9'], some ['9', '9'], none, none⟩ ['9', '9']
    (by decide) (by decide) (by decide)

/-- C6: for every row whose declared duration parses, the quarter-hour rule
(modelled from the spec, using the source's `round_to_multiple` helper)
yields exactly one warning when the parsed duration differs from its
rounding to the nearest 0.25, and no finding when they agree. -/
theorem c6_quarter_hour_rule (r : TSRow) (d : Rat)
    (h : (parse_timesheet_row r).duration = some d) :
    (d ≠ round_to_multiple d (1 / 4) →
      quarter_hour_errors [r] (parse_timesheet [r]) =
        [⟨[true], .durationNotQuarter, .warning⟩])
  ∧ (d = round_to_multiple d (1 / 4) →
      quarter_hour_errors [r] (parse_timesheet [r]) = []) := by
  constructor
  · intro hne
    rw [one_div] at hne
    simp [quarter_hour_errors, parse_timesheet, h, hne, anyTrue]
  · intro heq
    rw [one_div] at heq
    simp [quarter_hour_errors, parse_timesheet, h, anyTrue, if_pos heq]

/-- A row whose declared duration 1.6 is not a quarter-hour multiple. -/
def r16Row : TSRow := { duration := some "1.6" }

/-- A row whose declared duration 1.75 is a quarter-hour multiple. -/
def r175Row : TSRow := { duration := some "1.75" }

/-- Witness for C6: declared 1.6 rounds to 1.5 and warns; 1.75 does not. -/
theorem c6_quarter_hour_witness :
    quarter_hour_errors [r16Row] (parse_timesheet [r16Row]) =
      [⟨[true], .durationNotQuarter, .warning⟩]
  ∧ quarter_hour_errors [r175Row] (parse_timesheet [r175Row]) = [] := by
  constructor
  · exact (c6_quarter_hour_rule r16Row ((8 : Rat) / 5)
      (by with_unfolding_all decide)).1 (by with_unfolding_all decide)
  · exact (c6_quarter_hour_rule r175Row ((7 : Rat) / 4)
      (by with_unfolding_all decide)).2 (by with_unfolding_all decide)

/-- The stamps of the surviving rows are the original (pre-filter) indices
plus the header offset, whatever the starting offset. -/
theorem stamp_enumFrom (rows : List TSRow) (n : Nat) :
    (((rows.enumFrom n).filter fun ir => !businessBlank ir.2).map
        fun ir => ir.1 + EXCEL_HEADER + 2)
      = surviving_sheet_rows rows n := by
  induction rows generalizing n with
  | nil => rfl
  | cons r rs ih =>
    by_cases hb : businessBlank r = true
    · simp [List.enumFrom, List.filter_cons, surviving_sheet_rows, hb, ih]
    · simp only [Bool.not_eq_true] at hb
      simp [List.enumFrom, List.filter_cons, surviving_sheet_rows, hb, ih]

/-- C7: the batch assembler stamps every surviving row with its original
unfiltered sheet position (index + `EXCEL_HEADER` + 2), not its post-filter
index; concretely, a period whose rows at original positions 4 and 6
survive around blanks at positions 3 and 5 reports exactly [4, 6]. -/
theorem c7_row_number_fidelity :
    (∀ name rows,
      (concat_pay_periods [(name, rows)]).map (fun r => r.row)
        = surviving_sheet_rows rows 0)
  ∧ (concat_pay_periods
        [("P1", [{}, { position := some "Tutor" }, {}, { day := some "6" }])]).map
        (fun r => r.row) = [4, 6] := by
  constructor
  · intro name rows
    rw [← stamp_enumFrom rows 0]
    simp [concat_pay_periods, List.enum, List.map_map, Function.comp]
  · decide

/-- C8: for every single-row batch whose parsed position is a recognized
role, each column in that role's required set whose raw entry is blank
yields exactly one critical "Missing required entry" error for that column,
and a column outside the role's required set yields none (the role table is
modelled from the spec, see `POSITIONS`). -/
theorem c8_required_role_policy (r : TSRow) (pos : String) (policy : RolePolicy)
    (c : Col) (hmem : (pos, policy) ∈ POSITIONS)
    (hpos : (parse_timesheet_row r).position = some pos) :
    (c ∈ policy.required → r.get c = none →
      countMsgLevel (required_entry_errors [r] (parse_timesheet [r]))
        (.missingRequired c) .critical = 1)
  ∧ (c ∉ policy.required →
      countMsgLevel (required_entry_errors [r] (parse_timesheet [r]))
        (.missingRequired c) .critical = 0) := by
  simp only [POSITIONS, List.mem_cons, List.not_mem_nil, or_false,
    Prod.mk.injEq] at hmem
  rcases hmem with ⟨rfl, rfl⟩ | ⟨rfl, rfl⟩ | ⟨rfl, rfl⟩ <;>
    constructor <;>
    [ (intro hc hget);
      (intro hc);
      (intro hc hget);
      (intro hc);
      (intro hc hget);
      (intro hc) ] <;>
    simp only [List.mem_singleton, List.not_mem_nil] at hc <;>
    first
    | (subst hc
       simp only [TSRow.get] at hget
       simp [required_entry_errors, POSITIONS, parse_timesheet, hpos, anyTrue,
         countMsgLevel, TSRow.get, hget, List.countP_cons])
    | (simp [required_entry_errors, POSITIONS, parse_timesheet, hpos, anyTrue, hc]
       simp only [TSRow.get]
       cases hcourse : r.course <;>
         simp [hcourse, countMsgLevel, anyTrue, Ne.symm hc])
    | (simp [required_entry_errors, POSITIONS, parse_timesheet, hpos, anyTrue,
         countMsgLevel, List.countP_cons])

/-- A Tutor row with blank Class Tutored. -/
def tutorBlankRow : TSRow := { position := some "Tutor" }

/-- A Coordinator row with blank Class Tutored. -/
def coordBlankRow : TSRow := { position := some "Coordinator" }

/-- Witness for C8: a Tutor row with blank Class Tutored gets exactly one
critical missing-required error for that column; the same blank column on a
Coordinator row gets none. -/
theorem c8_required_witness :
    countMsgLevel (required_entry_errors [tutorBlankRow] (parse_timesheet [tutorBlankRow]))
      (.missingRequired .course) .critical = 1
  ∧ countMsgLevel (required_entry_errors [coordBlankRow] (parse_timesheet [coordBlankRow]))
      (.missingRequired .course) .critical = 0 :=
  ⟨(c8_required_role_policy tutorBlankRow "tutor" ⟨[.course], []⟩ .course
      (by decide) (by decide)).1 (by decide) (by decide),
   (c8_required_role_policy coordBlankRow "coordinator" ⟨[], []⟩ .course
      (by decide) (by decide)).2 (by decide)⟩

/-- The count distributes over concatenated error lists. -/
theorem countMsgLevel_append (l1 l2 : List TSError) (m : Msg) (lv : ErrorLevel) :
    countMsgLevel (l1 ++ l2) m lv = countMsgLevel l1 m lv + countMsgLevel l2 m lv := by
  induction l1 with
  | nil => simp [countMsgLevel]
  | cons e es ih =>
    simp only [List.cons_append, countMsgLevel, List.append_eq]
    rw [ih]
    omega

/-- A guarded single error with a different template never contributes. -/
theorem countMsgLevel_if_ne (P : Prop) [Decidable P] (e : TSError) (m : Msg)
    (lv : ErrorLevel) (h : ¬e.message = m) :
    countMsgLevel (if P then [e] else []) m lv = 0 := by
  split <;> simp [countMsgLevel, h]

/-- A row whose Position is not a recognized role. -/
def wizardRow : TSRow := { position := some "Wizard" }

/-- A row whose only entry is a whitespace-only Notes cell. -/
def wsNotesRow : TSRow := { notes := some " " }

/-- C10: the "entry not understood" rule covers all ten business columns:
for every single-row batch and every column whose raw entry is present but
whose parsed entry is absent, `invalid_entry_errors` yields exactly one
critical error for that column.  Concretely, a row with an unrecognized
Position gets two critical findings (invalid position plus entry not
understood), and a whitespace-only optional textual field such as Notes
gets a critical entry-not-understood finding. -/
theorem c10_invalid_entry_all_columns (r : TSRow) (c : Col)
    (hraw : (r.get c).isSome = true)
    (hparsed : (parse_timesheet_row r).present c = false) :
    countMsgLevel (invalid_entry_errors [r] (parse_timesheet [r]))
      (.invalidEntry c) .critical = 1
  ∧ timesheet_errors [wizardRow] (parse_timesheet [wizardRow]) =
      some [⟨"Invalid position: Wizard", .critical, 0⟩,
            ⟨"Position entry not understood: Wizard", .critical, 0⟩]
  ∧ timesheet_errors [wsNotesRow] (parse_timesheet [wsNotesRow]) =
      some [⟨"Missing entry: Position", .critical, 0⟩,
            ⟨"Notes entry not understood:  ", .critical, 0⟩] := by
  refine ⟨?_, by decide, by decide⟩
  cases c <;>
    simp only [TSRow.get] at hraw <;>
    simp only [ParsedRow.present] at hparsed <;>
    simp only [Bool.eq_false_iff, ne_eq, Option.not_isSome_iff_eq_none] at hparsed <;>
    simp [invalid_entry_errors, COLUMNS, parse_timesheet, anyTrue,
      countMsgLevel_append, countMsgLevel_if_ne, countMsgLevel,
      TSRow.get, ParsedRow.present, hraw, hparsed]

/-- Witness for C10: the whitespace-only Notes row instantiates the general
count at the Notes column. -/
theorem c10_invalid_entry_witness :
    countMsgLevel (invalid_entry_errors [wsNotesRow] (parse_timesheet [wsNotesRow]))
      (.invalidEntry .notes) .critical = 1 :=
  (c10_invalid_entry_all_columns wsNotesRow .notes (by decide) (by decide)).1
